import Mathlib

/-!
Shallow embedding of the storage-engine core of `tpsread` (`src/tpsread/tps.py`)
and verification of the frozen claims about it.

Bytes are modelled as natural numbers (each byte `< 256` in real inputs; the
definitions are total over `ℕ`).  A file, or a decrypted window of one, is a
`List ℕ`.  Fallible parsing returns `Except`.
-/

/-- Little-endian 16-bit integer from the first two bytes (construct `ULInt16`). -/
def uLInt16 (bs : List ℕ) : ℕ :=
  bs.getD 0 0 + 256 * bs.getD 1 0

/-- Little-endian 32-bit integer from the first four bytes (construct `ULInt32`). -/
def uLInt32 (bs : List ℕ) : ℕ :=
  bs.getD 0 0 + 256 * bs.getD 1 0 + 65536 * bs.getD 2 0 + 16777216 * bs.getD 3 0

/-- Big-endian 32-bit integer from the first four bytes (construct `UBInt32`),
the one big-endian field of the header (`last_issued_row`). -/
def uBInt32 (bs : List ℕ) : ℕ :=
  16777216 * bs.getD 0 0 + 65536 * bs.getD 1 0 + 256 * bs.getD 2 0 + bs.getD 3 0

/-- Errors construct's parser can raise while `TPS.__init__` parses the header:
`FieldError` (stream exhausted inside a fixed-width field), `ConstError`
(the `Const` marker comparison failed — the only error `__init__` catches),
`ArrayError` (construct's `MetaArray` wraps subconstruct errors into this). -/
inductive HeaderError where
  | fieldError
  | constError
  | arrayError
deriving DecidableEq

/-- Read `n` bytes from the front of the stream, as construct's `StaticField`
does: fail with `FieldError` when fewer than `n` bytes remain. -/
def readField (n : ℕ) (bs : List ℕ) : Except HeaderError (List ℕ × List ℕ) :=
  if n ≤ bs.length then Except.ok (bs.take n, bs.drop n) else Except.error HeaderError.fieldError

/-- The 6-byte header marker constant `b'tOpS\x00\x00'`. -/
def tpsMarker : List ℕ := [0x74, 0x4F, 0x70, 0x53, 0x00, 0x00]

/-- Number of elements construct's `MetaArray` parses for the block arrays.
The source computes the count as `(size - 0x20) / 2 / 4` with Python 3 float
division and the array loop runs `while c < count`, so the number of elements
parsed is the number of naturals below the rational `(size - 32) / 8`:
`0` when `size < 32` (negative or zero count) and `⌈(size - 32) / 8⌉`
otherwise.  (`size ≤ 0xFFFF`, so the float arithmetic is exact.) -/
def metaArrayCount (size : ℕ) : ℕ :=
  if size < 32 then 0 else (size - 32 + 7) / 8

/-- Parse `n` little-endian 32-bit integers, as construct's `MetaArray` of
`ULInt32` does; a subconstruct failure surfaces as `ArrayError`. -/
def parseArray : ℕ → List ℕ → Except HeaderError (List ℕ × List ℕ)
  | 0, bs => Except.ok ([], bs)
  | n + 1, bs =>
    match readField 4 bs with
    | Except.error _ => Except.error HeaderError.arrayError
    | Except.ok (w, r) =>
      match parseArray n r with
      | Except.error e => Except.error e
      | Except.ok (ws, r2) => Except.ok (uLInt32 w :: ws, r2)

/-- The parsed TPS file header (`header` struct in `TPS.__init__`). -/
structure FileHeader where
  offset : ℕ
  size : ℕ
  file_size : ℕ
  allocated_file_size : ℕ
  last_issued_row : ℕ
  change_count : ℕ
  page_root_ref : ℕ
  block_start_ref : List ℕ
  block_end_ref : List ℕ
deriving DecidableEq

/-- Parse the TPS file header from a decrypted byte window, field by field in
the order of the construct `Struct` in `TPS.__init__`: `offset` (ULInt32),
`size` (ULInt16), `file_size`, `allocated_file_size` (ULInt32), the 6-byte
`Const` marker, `last_issued_row` (UBInt32), `change_count`, `page_root_ref`
(ULInt32), then the two block-reference arrays of `metaArrayCount size`
ULInt32 entries each. -/
def parseHeader (bs : List ℕ) : Except HeaderError FileHeader :=
  match readField 4 bs with
  | Except.error e => Except.error e
  | Except.ok (offsetB, r1) =>
  match readField 2 r1 with
  | Except.error e => Except.error e
  | Except.ok (sizeB, r2) =>
  match readField 4 r2 with
  | Except.error e => Except.error e
  | Except.ok (fileSizeB, r3) =>
  match readField 4 r3 with
  | Except.error e => Except.error e
  | Except.ok (allocB, r4) =>
  match readField 6 r4 with
  | Except.error e => Except.error e
  | Except.ok (markerB, r5) =>
  if markerB = tpsMarker then
    match readField 4 r5 with
    | Except.error e => Except.error e
    | Except.ok (lastRowB, r6) =>
    match readField 4 r6 with
    | Except.error e => Except.error e
    | Except.ok (changeB, r7) =>
    match readField 4 r7 with
    | Except.error e => Except.error e
    | Except.ok (rootB, r8) =>
    match parseArray (metaArrayCount (uLInt16 sizeB)) r8 with
    | Except.error e => Except.error e
    | Except.ok (startRefs, r9) =>
    match parseArray (metaArrayCount (uLInt16 sizeB)) r9 with
    | Except.error e => Except.error e
    | Except.ok (endRefs, _) =>
      Except.ok ⟨uLInt32 offsetB, uLInt16 sizeB, uLInt32 fileSizeB, uLInt32 allocB,
                 uBInt32 lastRowB, uLInt32 changeB, uLInt32 rootB, startRefs, endRefs⟩
  else Except.error HeaderError.constError

/-- The `size` field of a successfully parsed header, `none` on failure. -/
def parsedSize (bs : List ℕ) : Option ℕ :=
  match parseHeader bs with
  | Except.ok h => some h.size
  | Except.error _ => none

/-- Length of `block_start_ref` of a successfully parsed header. -/
def parsedLen (bs : List ℕ) : Option ℕ :=
  match parseHeader bs with
  | Except.ok h => some h.block_start_ref.length
  | Except.error _ => none

/-- Length of `block_end_ref` of a successfully parsed header. -/
def parsedEndLen (bs : List ℕ) : Option ℕ :=
  match parseHeader bs with
  | Except.ok h => some h.block_end_ref.length
  | Except.error _ => none

/-- Whether header parsing succeeded. -/
def headerOk (bs : List ℕ) : Bool :=
  match parseHeader bs with
  | Except.ok _ => true
  | Except.error _ => false

/-- The raw `size` field as the parser will read it: bytes 4–5, little-endian. -/
def sizeField (bs : List ℕ) : ℕ := uLInt16 ((bs.drop 4).take 2)

/-- The raw marker region as the parser will read it: bytes 14–19. -/
def markerField (bs : List ℕ) : List ℕ := (bs.drop 14).take 6

/-- Outcome of `TPS.__init__` after the file-existence and size checks:
`opened h` — header parsed, construction proceeds with `h`;
`objectWithoutHeader` — the header marker comparison failed, construct raised
`ConstError`, the `except adapters.ConstError` handler printed
a message and `__init__` returned normally, so the caller receives a TPS
object that has no `header`/`pages` attributes;
`raised e` — some other parse error propagated out of `__init__`. -/
inductive OpenOutcome where
  | opened (h : FileHeader)
  | objectWithoutHeader
  | raised (e : HeaderError)
deriving DecidableEq

/-- `TPS.__init__`'s header phase on the decrypted 0x200-byte window: parse the
header; only `ConstError` is caught (and swallowed), every other error
propagates.  The subsequent page walk and schema scan are modelled separately
(`getdefinition`). -/
def TPS_init (window : List ℕ) : OpenOutcome :=
  match parseHeader window with
  | Except.ok h => OpenOutcome.opened h
  | Except.error HeaderError.constError => OpenOutcome.objectWithoutHeader
  | Except.error e => OpenOutcome.raised e

/-- Advisory warnings `TPS.__init__` can emit. -/
inductive TpsWarning where
  | sizeWarning
deriving DecidableEq

/-- The file-size check of `TPS.__init__`: only under `check`, a file size
with `file_size & 0x3F != 0` emits the (non-fatal) `RuntimeWarning`. -/
def checkSizeWarnings (check : Bool) (file_size : ℕ) : List TpsWarning :=
  if check && !(file_size &&& 0x3F == 0) then [TpsWarning.sizeWarning] else []

/-- `TPS.__init__` as observed by the caller: the advisory warnings emitted
and the header-phase outcome.  The size check never influences the outcome. -/
def TPS_open (check : Bool) (file_size : ℕ) (window : List ℕ) :
    List TpsWarning × OpenOutcome :=
  (checkSizeWarnings check file_size, TPS_init window)

/-- A decryptor object as `TPS.read` duck-types it (the `decryptor_class`
constructor argument): an `is_encrypted` flag and a `decrypt size pos`
operation. -/
structure Decryptor where
  is_encrypted : Bool
  decrypt : ℕ → ℕ → List ℕ

/-- Modelled from the spec: `tpscrypt.py` is not part of this corpus.  Per
§4.1, with an absent or empty passphrase the decryptor reports not-encrypted. -/
def passwordPresent : Option String → Bool
  | none => false
  | some s => !s.isEmpty

/-- Modelled from the spec: the default `TpsDecryptor` over byte source
`data`.  With no (or an empty) passphrase it is a pass-through; the
format-specific block cipher used otherwise is not given by the corpus and is
abstracted as the `cipher` argument. -/
def TpsDecryptor (data : List ℕ) (password : Option String) (cipher : ℕ → ℕ → List ℕ) :
    Decryptor :=
  ⟨passwordPresent password,
   fun size pos => if passwordPresent password then cipher size pos else (data.drop pos).take size⟩

/-- A raw `seek(pos)`-then-`read(size)` on the mmap-ed byte source. -/
def rawRead (data : List ℕ) (size pos : ℕ) : List ℕ := (data.drop pos).take size

/-- `TPS.read(size, pos)` with an explicit position (when `pos` is omitted the
source uses the current file offset instead): dispatches to the decryptor if
`is_encrypted()`, else reads raw bytes from the mmap. -/
def TPS_read (d : Decryptor) (data : List ℕ) (size pos : ℕ) : List ℕ :=
  if d.is_encrypted then d.decrypt size pos else rawRead data size pos

/-- `TPS.block_contains(start_ref, end_ref)`: linear scan over the indices of
`block_start_ref`, returning true on the first `i` with
`block_start_ref[i] <= start_ref and end_ref <= block_end_ref[i]`. -/
def block_contains (header : FileHeader) (start_ref end_ref : ℕ) : Bool :=
  (List.range header.block_start_ref.length).any fun i =>
    decide (header.block_start_ref.getD i 0 ≤ start_ref) &&
    decide (end_ref ≤ header.block_end_ref.getD i 0)

/-- Errors the date/time converters can raise: `valueError` from Python's
`datetime.date`/`datetime.time` constructors on out-of-range fields,
`fieldError` from construct when the input is shorter than the struct,
`typeError` from calling a non-callable object. -/
inductive PyError where
  | valueError
  | fieldError
  | typeError
deriving DecidableEq

/-- A value of Python's `datetime.date`. -/
structure PyDate where
  year : ℕ
  month : ℕ
  day : ℕ
deriving DecidableEq

/-- A value of Python's `datetime.time`. -/
structure PyTime where
  hour : ℕ
  minute : ℕ
  second : ℕ
  microsecond : ℕ
deriving DecidableEq

/-- Gregorian leap-year rule, as Python's `datetime` uses. -/
def isLeapYear (y : ℕ) : Bool :=
  y % 4 == 0 && (y % 100 != 0 || y % 400 == 0)

/-- Days in a month of the proleptic Gregorian calendar. -/
def daysInMonth (y m : ℕ) : ℕ :=
  if m = 2 then (if isLeapYear y then 29 else 28)
  else if m = 4 ∨ m = 6 ∨ m = 9 ∨ m = 11 then 30
  else 31

/-- Validity condition of Python's `datetime.date(year, month, day)`:
`1 <= year <= 9999`, `1 <= month <= 12`, `1 <= day <= days_in_month`. -/
def isValidDate (y m d : ℕ) : Bool :=
  1 ≤ y && y ≤ 9999 && 1 ≤ m && m ≤ 12 && 1 ≤ d && d ≤ daysInMonth y m

/-- Python's `datetime.date` constructor: the date, or `ValueError`. -/
def pyDate (y m d : ℕ) : Except PyError PyDate :=
  if isValidDate y m d then Except.ok ⟨y, m, d⟩ else Except.error PyError.valueError

/-- Validity condition of Python's `datetime.time(hour, minute, second,
microsecond)` — the constructor the source intends to call in `to_time` but
never reaches, having imported the `time` module instead. -/
def isValidTime (h m s us : ℕ) : Bool :=
  h ≤ 23 && m ≤ 59 && s ≤ 59 && us ≤ 999999

/-- The `year` field as `DATE_STRUCT` reads it: bytes 2–3, little-endian. -/
def dateYearOf (bs : List ℕ) : ℕ := bs.getD 2 0 + 256 * bs.getD 3 0

/-- `TPS.to_date(value)`: parse `DATE_STRUCT` (`day` 1 byte, `month` 1 byte,
`year` ULInt16), return `None` when `year == 0`, else
`datetime.date(year, month, day)`. -/
def to_date (bs : List ℕ) : Except PyError (Option PyDate) :=
  if bs.length < 4 then Except.error PyError.fieldError
  else
    let day := bs.getD 0 0
    let month := bs.getD 1 0
    let year := dateYearOf bs
    if year = 0 then Except.ok none
    else
      match pyDate year month day with
      | Except.ok d => Except.ok (some d)
      | Except.error e => Except.error e

/-- `TPS.to_time(value)`: first `TIME_STRUCT.parse(value)` runs
(`centisecond`, `second`, `minute`, `hour`, 1 byte each; `FieldError` when
fewer than 4 bytes are available), then the source evaluates
`time(value_time.hour, value_time.minute, value_time.second,
value_time.centisecond * 10000)`.  But `tps.py` imports the `time` *module*
(`import time`, line 11) and never imports `datetime.time` (line 10 imports
only `date`), so this call applies a module object and raises
`TypeError: module object is not callable` on every input that parses. -/
def to_time (bs : List ℕ) : Except PyError PyTime :=
  if bs.length < 4 then Except.error PyError.fieldError
  else Except.error PyError.typeError

/-- Whether `to_time` succeeded on the input. -/
def timeOk (bs : List ℕ) : Bool :=
  match to_time bs with
  | Except.ok _ => true
  | Except.error _ => false

/-- Modelled from the spec: one entry of the table registry (`tpstable.py` is
not part of this corpus).  Per §3, a table accumulates an optional name and
optional definition bytes. -/
structure TpsTable where
  name : Option String
  definition : Option (List ℕ)
deriving DecidableEq

/-- The table registry's contents, in insertion order. -/
abbrev Registry : Type := List (ℕ × TpsTable)

/-- Modelled from the spec (§4.5): the table numbers currently known. -/
def get_numbers (reg : Registry) : List ℕ := reg.map Prod.fst

/-- Modelled from the spec (§4.5): `add` is idempotent; a new number starts
with no name and no definition. -/
def addTable (reg : Registry) (n : ℕ) : Registry :=
  if (get_numbers reg).contains n then reg else reg ++ [(n, ⟨none, none⟩)]

/-- Modelled from the spec (§4.5): upsert the name of table `n`. -/
def set_name (reg : Registry) (n : ℕ) (s : String) : Registry :=
  if (get_numbers reg).contains n then
    reg.map fun e => if e.1 = n then (n, ⟨some s, e.2.definition⟩) else e
  else reg ++ [(n, ⟨some s, none⟩)]

/-- Modelled from the spec (§4.5): upsert the definition bytes of table `n`. -/
def add_definition (reg : Registry) (n : ℕ) (bs : List ℕ) : Registry :=
  if (get_numbers reg).contains n then
    reg.map fun e => if e.1 = n then (n, ⟨e.2.name, some bs⟩) else e
  else reg ++ [(n, ⟨none, some bs⟩)]

/-- Modelled from the spec (§3/§4.5): a table is complete once it has both a
non-empty name and non-empty definition bytes. -/
def tableComplete (t : TpsTable) : Bool :=
  (match t.name with
   | some s => !s.isEmpty
   | none => false) &&
  (match t.definition with
   | some d => !d.isEmpty
   | none => false)

/-- Modelled from the spec (§4.5): the registry is complete once every known
table is complete.  An empty registry is not complete: §8's monotonicity
property (`iscomplete()` never transitions from true back to false) and §2's
purpose (accumulate "until the catalog is complete") force the vacuous case
to be false, since the registry starts empty and completeness must first
become true only after records arrive. -/
def iscomplete (reg : Registry) : Bool :=
  !reg.isEmpty && reg.all fun e => tableComplete e.2

/-- Modelled from the spec (§4.5): `get_number(name) -> table_number or None`,
the number of a table whose name equals the argument. -/
def get_number (reg : Registry) (tablename : Option String) : Option ℕ :=
  (reg.find? fun e => e.2.name == tablename).map Prod.fst

/-- Record type tags distinguished by `TPS.__getdefinition` (the decoder's
other tags all behave like `DATA` there). -/
inductive RecordType where
  | NULL
  | TABLE_NAME
  | TABLE_DEFINITION
  | DATA
  | METADATA
deriving DecidableEq

/-- Modelled from the spec (§3): one decoded record as `TPS.__getdefinition`
consumes it (`tpsrecord.py` is not part of this corpus): a type tag, the
table number from its key, and the type-dependent payload fields. -/
structure TpsRecord where
  type : RecordType
  table_number : ℕ
  table_name : String
  table_definition_bytes : List ℕ
deriving DecidableEq

/-- Modelled from the spec (§3): a directory page as `TPS.__getdefinition`
consumes it (`tpspage.py` is not part of this corpus): its address, its
hierarchy level (0 = leaf), and its decoded record stream. -/
structure TpsPage where
  ref : ℕ
  hierarchy_level : ℕ
  records : List TpsRecord
deriving DecidableEq

/-- The body of the inner loop of `TPS.__getdefinition` for one record:
register an unseen table number (unless the record is `NULL`), upsert the
name on `TABLE_NAME`, upsert the definition on `TABLE_DEFINITION`. -/
def processRecord (reg : Registry) (r : TpsRecord) : Registry :=
  let reg1 := if r.type ≠ RecordType.NULL ∧ ¬(get_numbers reg).contains r.table_number
              then addTable reg r.table_number else reg
  let reg2 := if r.type = RecordType.TABLE_NAME
              then set_name reg1 r.table_number r.table_name else reg1
  if r.type = RecordType.TABLE_DEFINITION
  then add_definition reg2 r.table_number r.table_definition_bytes else reg2

/-- The inner `for record in TpsRecordsList(...)` loop of
`TPS.__getdefinition`: process records in order, breaking as soon as
`iscomplete()` holds after a record; returns the final registry and the list
of records actually processed. -/
def scanRecords (reg : Registry) : List TpsRecord → Registry × List TpsRecord
  | [] => (reg, [])
  | r :: rs =>
    let t1 := processRecord reg r
    if iscomplete t1 then (t1, [r])
    else ((scanRecords t1 rs).1, r :: (scanRecords t1 rs).2)

/-- The outer loop of `TPS.__getdefinition` over an already-ordered page
sequence: a page's records are scanned only when its `hierarchy_level == 0`;
after each page the loop breaks if `iscomplete()` holds (which is exactly
when the inner loop broke early or completed on its last record). -/
def getdefinitionAux (reg : Registry) : List TpsPage → Registry × List TpsRecord
  | [] => (reg, [])
  | p :: ps =>
    let s1 := if p.hierarchy_level == 0 then scanRecords reg p.records else (reg, [])
    if iscomplete s1.1 then s1
    else ((getdefinitionAux s1.1 ps).1, s1.2 ++ (getdefinitionAux s1.1 ps).2)

/-- `TPS.__getdefinition`: iterate over `reversed(self.pages.list())`.  Pages
are given in discovery order (the order `pages.list()` returns); the record
trace of the scan is returned alongside the final registry. -/
def getdefinition (reg : Registry) (pages : List TpsPage) : Registry × List TpsRecord :=
  getdefinitionAux reg pages.reverse

/-- The attributes of a TPS object that `set_current_table` can touch. -/
structure TPSHandle where
  current_table_number : Option ℕ
  tables : Registry

/-- `TPS.set_current_table(tablename)`:
`self.current_table_number = self.tables.get_number(tablename)`. -/
def set_current_table (tps : TPSHandle) (tablename : Option String) : TPSHandle :=
  ⟨get_number tps.tables tablename, tps.tables⟩

/-- A 32-byte header window whose `size` field is 0x10 (< 0x20, so the block
count `(0x10 - 0x20) / 2 / 4` is negative) and whose marker is correct. -/
def input16 : List ℕ :=
  [0,0,0,0, 16,0, 0,0,0,0, 0,0,0,0, 0x74,0x4F,0x70,0x53,0,0, 0,0,0,0, 0,0,0,0, 0,0,0,0]

/-- A 40-byte header window whose `size` field is 33, making the block count
the non-integral 1/8; the loop then parses one entry per array. -/
def input33 : List ℕ :=
  [0,0,0,0, 33,0, 0,0,0,0, 0,0,0,0, 0x74,0x4F,0x70,0x53,0,0, 0,0,0,0, 0,0,0,0, 0,0,0,0,
   0,0,0,0, 0,0,0,0]

/-- A 40-byte header window whose `size` field is 40, an exact count of one
entry per array. -/
def input40 : List ℕ :=
  [0,0,0,0, 40,0, 0,0,0,0, 0,0,0,0, 0x74,0x4F,0x70,0x53,0,0, 0,0,0,0, 0,0,0,0, 0,0,0,0,
   0,0,0,0, 0,0,0,0]

/-- The header `input40` parses to. -/
def hdr40 : FileHeader := ⟨0, 40, 0, 0, 0, 0, 0, [0], [0]⟩

/-- Example records for the schema scan. -/
def recName1 : TpsRecord := ⟨RecordType.TABLE_NAME, 1, "orders", []⟩

def recData1 : TpsRecord := ⟨RecordType.DATA, 1, "", [7]⟩

def recDefn1 : TpsRecord := ⟨RecordType.TABLE_DEFINITION, 1, "", [3, 4]⟩

/-- An example page directory in discovery order: a leaf holding table 1's
definition record, an internal (level 1) page, and a later leaf holding
table 1's name record plus a data record. -/
def pagesEx : List TpsPage :=
  [⟨0x100, 0, [recDefn1]⟩, ⟨0x300, 1, [recName1]⟩, ⟨0x200, 0, [recName1, recData1]⟩]

/-- An example TPS handle with one fully-registered table. -/
def tpsHandleEx : TPSHandle := ⟨some 5, [(1, ⟨some "orders", some [1, 2]⟩)]⟩

-- Helper lemmas.

/-- Sanity characterisation of `metaArrayCount`: the loop iterates at `c`
exactly when `8 * c` is still below the (truncated) numerator `size - 32`. -/
theorem metaArrayCount_iff (size c : ℕ) : c < metaArrayCount size ↔ 8 * c < size - 32 := by
  unfold metaArrayCount
  split <;> omega

theorem readField_ok (n : ℕ) (bs : List ℕ) (h : n ≤ bs.length) :
    readField n bs = Except.ok (bs.take n, bs.drop n) := by
  simp [readField, h]

theorem parseArray_ok_length (n : ℕ) (bs ws rest : List ℕ)
    (h : parseArray n bs = Except.ok (ws, rest)) : ws.length = n := by
  induction n generalizing bs ws rest with
  | zero => simp [parseArray] at h; simp [h.1]
  | succ m ih =>
    unfold parseArray at h
    split at h
    · exact absurd h (by simp)
    · split at h
      · exact absurd h (by simp)
      · rename_i ws2 r2 heq
        rw [Except.ok.injEq, Prod.mk.injEq] at h
        rw [← h.1]
        simp [ih _ _ _ heq]


theorem parseHeader_marker_mismatch (bs : List ℕ) (hlen : 20 ≤ bs.length)
    (hm : markerField bs ≠ tpsMarker) :
    parseHeader bs = Except.error HeaderError.constError := by
  have h4 : 4 ≤ bs.length := by omega
  have h2 : 2 ≤ (bs.drop 4).length := by simp only [List.length_drop]; omega
  have h4b : 4 ≤ ((bs.drop 4).drop 2).length := by simp only [List.length_drop]; omega
  have h4c : 4 ≤ (((bs.drop 4).drop 2).drop 4).length := by simp only [List.length_drop]; omega
  have h6 : 6 ≤ ((((bs.drop 4).drop 2).drop 4).drop 4).length := by
    simp only [List.length_drop]; omega
  have hm2 : ((((bs.drop 4).drop 2).drop 4).drop 4).take 6 ≠ tpsMarker := by
    simpa [List.drop_drop, markerField] using hm
  unfold parseHeader
  simp only [readField_ok 4 bs h4, readField_ok 2 (bs.drop 4) h2,
    readField_ok 4 ((bs.drop 4).drop 2) h4b, readField_ok 4 (((bs.drop 4).drop 2).drop 4) h4c,
    readField_ok 6 ((((bs.drop 4).drop 2).drop 4).drop 4) h6]
  rw [if_neg hm2]

theorem parseHeader_small_size (bs : List ℕ) (hlen : 32 ≤ bs.length)
    (hm : markerField bs = tpsMarker) (hsz : sizeField bs < 32) :
    parseHeader bs = Except.ok ⟨uLInt32 (bs.take 4), sizeField bs,
      uLInt32 ((bs.drop 6).take 4), uLInt32 ((bs.drop 10).take 4),
      uBInt32 ((bs.drop 20).take 4), uLInt32 ((bs.drop 24).take 4),
      uLInt32 ((bs.drop 28).take 4), [], []⟩ := by
  have h4 : 4 ≤ bs.length := by omega
  have h2 : 2 ≤ (bs.drop 4).length := by simp only [List.length_drop]; omega
  have h4b : 4 ≤ (bs.drop 6).length := by simp only [List.length_drop]; omega
  have h4c : 4 ≤ (bs.drop 10).length := by simp only [List.length_drop]; omega
  have h6 : 6 ≤ (bs.drop 14).length := by simp only [List.length_drop]; omega
  have h4d : 4 ≤ (bs.drop 20).length := by simp only [List.length_drop]; omega
  have h4e : 4 ≤ (bs.drop 24).length := by simp only [List.length_drop]; omega
  have h4f : 4 ≤ (bs.drop 28).length := by simp only [List.length_drop]; omega
  have hm2 : (bs.drop 14).take 6 = tpsMarker := hm
  have hc : metaArrayCount (uLInt16 ((bs.drop 4).take 2)) = 0 := by
    unfold sizeField at hsz
    simp [metaArrayCount, hsz]
  unfold parseHeader
  simp only [readField_ok 4 bs h4, readField_ok 2 (bs.drop 4) h2, List.drop_drop,
    readField_ok 4 (bs.drop 6) h4b, readField_ok 4 (bs.drop 10) h4c,
    readField_ok 6 (bs.drop 14) h6, readField_ok 4 (bs.drop 20) h4d,
    readField_ok 4 (bs.drop 24) h4e, readField_ok 4 (bs.drop 28) h4f,
    hm2, if_pos, hc, parseArray, sizeField]

theorem parseHeader_lengths (bs : List ℕ) (h : FileHeader)
    (hp : parseHeader bs = Except.ok h) :
    h.block_start_ref.length = metaArrayCount h.size ∧
    h.block_end_ref.length = metaArrayCount h.size := by
  unfold parseHeader at hp
  repeat' split at hp <;> try exact Except.noConfusion hp
  rw [Except.ok.injEq] at hp
  subst hp
  exact ⟨parseArray_ok_length _ _ _ _ (by assumption),
         parseArray_ok_length _ _ _ _ (by assumption)⟩

/-- Claim C1 (code bug): the claim — and the spec's intent (§7, §9) — is that
a marker mismatch makes opening fail outright.  The code instead catches the
`ConstError`, prints a message and lets `__init__` return normally, so the
caller receives a usable partially-constructed TPS object.  This theorem
records the code's actual behavior on every decrypted window whose marker
region differs from `b'tOpS\x00\x00'`. -/
theorem C1_marker_mismatch_returns_object (bs : List ℕ) (hlen : 20 ≤ bs.length)
    (hm : markerField bs ≠ tpsMarker) :
    TPS_init bs = OpenOutcome.objectWithoutHeader := by
  simp [TPS_init, parseHeader_marker_mismatch bs hlen hm]

/-- Witness for C1 at the concrete failing input: a 40-byte all-zero file. -/
theorem C1_marker_mismatch_returns_object_witness :
    TPS_init (List.replicate 40 0) = OpenOutcome.objectWithoutHeader :=
  C1_marker_mismatch_returns_object (List.replicate 40 0) (by decide) (by decide)

/-- Counterexample to claim C3 as stated: `input33` parses successfully, its
header's `size` is 33, yet each block array has 1 entry while
`(33 - 32) / 8 = 1/8` is not a non-negative integer (`1 * 8 ≠ 33 - 32`). -/
theorem C3_counterexample_nonintegral :
    parsedSize input33 = some 33 ∧ parsedLen input33 = some 1 ∧
    parsedEndLen input33 = some 1 ∧ (1 : ℕ) * 8 ≠ 33 - 32 := by
  refine ⟨rfl, rfl, rfl, by decide⟩

/-- Claim C3 (amended): for every successfully parsed header the two block
arrays have equal length, and that length is `metaArrayCount size`, i.e.
`⌈(size - 32) / 8⌉` for `size ≥ 32` and `0` below; only when `size - 32` is a
non-negative multiple of 8 does it equal the claimed `(size - 32) / 8`. -/
theorem C3_amended_block_array_lengths (bs : List ℕ) (h : FileHeader)
    (hp : parseHeader bs = Except.ok h) :
    h.block_start_ref.length = h.block_end_ref.length ∧
    h.block_start_ref.length = metaArrayCount h.size := by
  obtain ⟨e1, e2⟩ := parseHeader_lengths bs h hp
  exact ⟨e1.trans e2.symm, e1⟩

/-- Witness for the amended C3 at `input40`. -/
theorem C3_amended_block_array_lengths_witness :
    hdr40.block_start_ref.length = hdr40.block_end_ref.length ∧
    hdr40.block_start_ref.length = metaArrayCount hdr40.size :=
  C3_amended_block_array_lengths input40 hdr40 rfl

/-- Counterexample to claim C4 as stated: `input16` declares `size = 0x10`,
which makes the block-array count `(0x10 - 0x20) / 8` negative, yet parsing
succeeds (returning a `FileHeader` with empty block arrays) instead of
failing with a `FormatError`. -/
theorem C4_counterexample_negative_size_parses :
    headerOk input16 = true ∧ parsedSize input16 = some 16 ∧
    parsedLen input16 = some 0 ∧ (16 : ℕ) < 32 := by
  refine ⟨rfl, rfl, rfl, by decide⟩

/-- Claim C4 (amended): the header parser does not validate the declared
`size`: whenever the marker matches, at least 32 bytes are present, and
`size < 0x20` (a negative implied block-array length), parsing succeeds with
empty block arrays; a non-integral implied length likewise parses (the next
whole number of entries) rather than failing. -/
theorem C4_amended_no_size_validation (bs : List ℕ) (hlen : 32 ≤ bs.length)
    (hm : markerField bs = tpsMarker) (hsz : sizeField bs < 32) :
    headerOk bs = true ∧ parsedLen bs = some 0 ∧ parsedEndLen bs = some 0 := by
  have hp := parseHeader_small_size bs hlen hm hsz
  simp [headerOk, parsedLen, parsedEndLen, hp]

/-- Witness for the amended C4 at `input16`. -/
theorem C4_amended_no_size_validation_witness :
    headerOk input16 = true ∧ parsedLen input16 = some 0 ∧ parsedEndLen input16 = some 0 :=
  C4_amended_no_size_validation input16 (by decide) (by decide) (by decide)

/-- Claim C5: a file size that is not a multiple of 64 bytes emits exactly
the advisory size warning under `check=true`, emits nothing under
`check=false`, and in neither case changes the opening outcome, which equals
`TPS_init` of the header window regardless of the size. -/
theorem C5_size_misalignment_advisory (file_size : ℕ) (window : List ℕ)
    (hmis : file_size % 64 ≠ 0) :
    (TPS_open true file_size window).1 = [TpsWarning.sizeWarning] ∧
    (TPS_open false file_size window).1 = [] ∧
    (TPS_open true file_size window).2 = TPS_init window ∧
    (TPS_open false file_size window).2 = TPS_init window := by
  have hand : file_size &&& 63 = file_size % 64 := Nat.and_pow_two_sub_one_eq_mod file_size 6
  refine ⟨?_, rfl, rfl, rfl⟩
  simp [TPS_open, checkSizeWarnings, hand, hmis]

/-- Witness for C5 at the spec's scenario size `0x41`. -/
theorem C5_size_misalignment_advisory_witness :
    (65 : ℕ) % 64 ≠ 0 ∧ (TPS_open true 65 []).1 = [TpsWarning.sizeWarning] ∧
    (TPS_open false 65 []).1 = [] :=
  ⟨by decide, (C5_size_misalignment_advisory 65 [] (by decide)).1,
   (C5_size_misalignment_advisory 65 [] (by decide)).2.1⟩

/-- Claim C6: with no (or an empty) passphrase the decryptor reports
not-encrypted and `TPS.read(size, pos)` returns exactly the raw bytes a
direct `seek(pos)`-then-`read(size)` of the underlying source yields, for
every size and position. -/
theorem C6_read_passthrough (data : List ℕ) (password : Option String)
    (cipher : ℕ → ℕ → List ℕ) (size pos : ℕ)
    (hpw : passwordPresent password = false) :
    TPS_read (TpsDecryptor data password cipher) data size pos = rawRead data size pos := by
  simp [TPS_read, TpsDecryptor, hpw]

/-- Witness for C6 on a concrete 5-byte file. -/
theorem C6_read_passthrough_witness :
    passwordPresent none = false ∧
    TPS_read (TpsDecryptor [1, 2, 3, 4, 5] none fun _ _ => []) [1, 2, 3, 4, 5] 2 1 = [2, 3] :=
  ⟨rfl, (C6_read_passthrough [1, 2, 3, 4, 5] none (fun _ _ => []) 2 1 rfl).trans rfl⟩

/-- Claim C7: `block_contains(start_ref, end_ref)` returns true exactly when
some index `i` of the header's block arrays satisfies
`block_start_ref[i] <= start_ref` and `end_ref <= block_end_ref[i]`; in
particular a page range passing the check is contained in a declared block. -/
theorem C7_block_contains_iff (header : FileHeader) (start_ref end_ref : ℕ) :
    block_contains header start_ref end_ref = true ↔
    ∃ i, i < header.block_start_ref.length ∧
      header.block_start_ref.getD i 0 ≤ start_ref ∧
      end_ref ≤ header.block_end_ref.getD i 0 := by
  simp [block_contains, List.any_eq_true, List.mem_range]

/-- Counterexample to claim C8 as stated: the 4-byte input `[1, 0, 1, 0]`
parses to day 1, month 0, year 1; the year is nonzero, yet `to_date` does not
return the calendar date `(1, 0, 1)` — no such date exists and Python's
`date` constructor raises `ValueError`. -/
theorem C8_counterexample_invalid_date :
    dateYearOf [1, 0, 1, 0] = 1 ∧ to_date [1, 0, 1, 0] = Except.error PyError.valueError :=
  ⟨rfl, rfl⟩

/-- Claim C8 (amended): `to_date` parses day (1 byte), month (1 byte), year
(2 bytes little-endian); a year of 0 yields `None`; for a nonzero year it
returns the calendar date `(year, month, day)` when the fields form a valid
Gregorian date (year at most 9999), and raises `ValueError` otherwise. -/
theorem C8_amended_to_date (d m y1 y2 : ℕ) :
    to_date [d, m, y1, y2] =
      (if y1 + 256 * y2 = 0 then Except.ok none
       else if isValidDate (y1 + 256 * y2) m d then Except.ok (some ⟨y1 + 256 * y2, m, d⟩)
       else Except.error PyError.valueError) := by
  unfold to_date
  simp only [List.length_cons, List.length_nil, dateYearOf, List.getD_cons_zero,
    List.getD_cons_succ]
  norm_num
  by_cases h0 : y1 + 256 * y2 = 0
  · have hy1 : y1 = 0 := by omega
    have hy2 : y2 = 0 := by omega
    subst hy1
    subst hy2
    simp
  · by_cases hv : isValidDate (y1 + 256 * y2) m d
    · simp [pyDate, h0, hv]
    · simp [pyDate, h0, hv]

/-- Claim C9 (code bug): the claim — and the spec's intent (§6) — is that
`to_time` builds a time of day from the parsed fields, succeeding exactly
when they form a valid time (centisecond at most 99).  The code instead
calls the `time` module imported at line 11 (`datetime.time` is never
imported), so the conversion raises `TypeError` on every input and never
succeeds — even on `[50, 30, 20, 10]`, whose fields 10:20:30 plus 50
centiseconds (500000 microseconds) form a perfectly valid time of day. -/
theorem C9_to_time_raises :
    (∀ bs, timeOk bs = false) ∧ isValidTime 10 20 30 500000 = true ∧
    to_time [50, 30, 20, 10] = Except.error PyError.typeError := by
  refine ⟨?_, by decide, rfl⟩
  intro bs
  unfold timeOk to_time
  by_cases hlt : bs.length < 4
  · simp [hlt]
  · simp [hlt]

/-- Claim C10: selecting a current table by a name not registered in the
table registry (including `None`, the default) sets `current_table_number`
to `None` without raising and leaves the registry unchanged. -/
theorem C10_set_current_table (tps : TPSHandle) (tablename : Option String)
    (hn : ∀ e ∈ tps.tables, e.2.name ≠ tablename) :
    (set_current_table tps tablename).current_table_number = none ∧
    (set_current_table tps tablename).tables = tps.tables := by
  refine ⟨?_, rfl⟩
  unfold set_current_table get_number
  have hfind : tps.tables.find? (fun e => e.2.name == tablename) = none := by
    rw [List.find?_eq_none]
    intro x hx
    simpa using hn x hx
  simp [hfind]

/-- Witness for C10: a registry holding table 1 named "orders", queried with
no table name. -/
theorem C10_set_current_table_witness :
    (set_current_table tpsHandleEx none).current_table_number = none ∧
    (set_current_table tpsHandleEx none).tables = tpsHandleEx.tables :=
  C10_set_current_table tpsHandleEx none (by decide)

theorem scanRecords_append (xs ys : List TpsRecord) (reg : Registry)
    (h : iscomplete reg = false) :
    scanRecords reg (xs ++ ys) =
      (if iscomplete (scanRecords reg xs).1 then scanRecords reg xs
       else ((scanRecords (scanRecords reg xs).1 ys).1,
             (scanRecords reg xs).2 ++ (scanRecords (scanRecords reg xs).1 ys).2)) := by
  induction xs generalizing reg with
  | nil =>
    simp [scanRecords, h]
  | cons r rs ih =>
    simp only [List.cons_append, scanRecords, List.append_eq]
    by_cases hc : iscomplete (processRecord reg r) = true
    · simp [hc]
    · have hc2 : iscomplete (processRecord reg r) = false := by simpa using hc
      simp only [hc2, Bool.false_eq_true, if_false]
      rw [ih (processRecord reg r) hc2]
      by_cases hc3 : iscomplete (scanRecords (processRecord reg r) rs).1 = true
      · simp [hc3]
      · simp [hc3]

theorem getdefinitionAux_flat (ps : List TpsPage) (reg : Registry)
    (h : iscomplete reg = false) :
    getdefinitionAux reg ps =
      scanRecords reg
        (((ps.filter fun p => p.hierarchy_level == 0).map TpsPage.records).flatten) := by
  induction ps generalizing reg with
  | nil => simp [getdefinitionAux, scanRecords]
  | cons p ps ih =>
    by_cases hl : (p.hierarchy_level == 0) = true
    · simp only [getdefinitionAux, hl, if_true, List.filter_cons, List.map_cons,
        List.flatten_cons]
      rw [scanRecords_append _ _ _ h]
      by_cases hc : iscomplete (scanRecords reg p.records).1 = true
      · simp [hc]
      · have hc2 : iscomplete (scanRecords reg p.records).1 = false := by simpa using hc
        simp only [hc2, Bool.false_eq_true, if_false]
        rw [ih _ hc2]
    · have hl2 : (p.hierarchy_level == 0) = false := by simpa using hl
      simp only [getdefinitionAux, hl2, Bool.false_eq_true, if_false, List.filter_cons, h]
      simpa [h] using ih reg h

theorem scanRecords_take_incomplete (rs : List TpsRecord) (reg : Registry)
    (h : iscomplete reg = false) (k : ℕ) (hk : k < (scanRecords reg rs).2.length) :
    iscomplete (List.foldl processRecord reg ((scanRecords reg rs).2.take k)) = false := by
  induction rs generalizing reg k with
  | nil => simp [scanRecords] at hk
  | cons r rs ih =>
    simp only [scanRecords] at hk ⊢
    by_cases hc : iscomplete (processRecord reg r) = true
    · simp only [hc, if_true] at hk ⊢
      have hk0 : k = 0 := by simp at hk; omega
      subst hk0
      simpa using h
    · have hc2 : iscomplete (processRecord reg r) = false := by simpa using hc
      simp only [hc2, Bool.false_eq_true, if_false] at hk ⊢
      cases k with
      | zero => simpa using h
      | succ j =>
        simp only [List.take_succ_cons, List.foldl_cons]
        exact ih (processRecord reg r) hc2 j (by simpa using hk)

/-- Claim C2: starting from a registry that is not yet complete (the registry
is empty when `__getdefinition` runs), the schema scan equals the early-stop
record scan over exactly the record streams of the hierarchy-level-0 pages
taken in reverse discovery order (so only leaf pages contribute, in reverse
`pages.list()` order, and the scan stops mid-page on completion), and no
record is processed after `iscomplete()` first becomes true: the registry is
still incomplete after every strict prefix of the processed-record trace. -/
theorem C2_schema_scan (reg0 : Registry) (pages : List TpsPage)
    (h : iscomplete reg0 = false) :
    getdefinition reg0 pages =
      scanRecords reg0
        (((pages.reverse.filter fun p => p.hierarchy_level == 0).map TpsPage.records).flatten) ∧
    ∀ k, k < (getdefinition reg0 pages).2.length →
      iscomplete (List.foldl processRecord reg0 ((getdefinition reg0 pages).2.take k)) = false := by
  have hflat := getdefinitionAux_flat pages.reverse reg0 h
  refine ⟨hflat, ?_⟩
  intro k hk
  unfold getdefinition at hk ⊢
  rw [hflat] at hk ⊢
  exact scanRecords_take_incomplete _ _ h k hk

/-- Witness for C2: the empty initial registry on `pagesEx`, whose scan
processes three records (name, data, then the completing definition). -/
theorem C2_schema_scan_witness :
    iscomplete ([] : Registry) = false ∧
    getdefinition [] pagesEx =
      scanRecords []
        (((pagesEx.reverse.filter fun p => p.hierarchy_level == 0).map TpsPage.records).flatten) ∧
    iscomplete (List.foldl processRecord ([] : Registry)
      ((getdefinition [] pagesEx).2.take 2)) = false :=
  ⟨rfl, (C2_schema_scan [] pagesEx rfl).1,
   (C2_schema_scan [] pagesEx rfl).2 2 (by decide)⟩
